import Mathlib

/-!
Verification of `src/playlistplaycount.py`.

The script fetches a playlist's tracks page by page, looks up a playcount
per track via a second API, and sums the matches.  All HTTP interaction is
modelled by explicit environments (functions from request data to
responses); recursion that is unbounded in the source (pagination retrying
on 401) is modelled with an explicit fuel parameter, `none` meaning the
source recursion would not have returned within that budget.
-/

/-! ## Data model (spec section 3, source lines 50-75 and 118-152) -/

/-- An artist object as delivered inside a playlist page item
(`artists` entries of a track, used at line 122 as `artist['name']`). -/
structure Artist where
  name : String
deriving DecidableEq

/-- The album object of a track (`track['album']['id']`, line 119). -/
structure Album where
  id : String
deriving DecidableEq

/-- A track object from a playlist page
(`fields=items(track(id,name,artists,album(id)))`, line 57). -/
structure Track where
  id : String
  name : String
  artists : List Artist
  album : Album
deriving DecidableEq

/-- One track entry of a disc in the playcount API response:
`{'uri': ..., 'playcount': ...}` (lines 137-139). -/
structure AlbumTrack where
  uri : String
  playcount : Nat
deriving DecidableEq

/-- One disc of the playcount API response (`data['data']['discs']`,
line 136). -/
structure Disc where
  tracks : List AlbumTrack
deriving DecidableEq

/-- The nested payload of the playcount API (`data['data']`), holding the
ordered disc list scanned at lines 136-142. -/
structure AlbumData where
  discs : List Disc
deriving DecidableEq

/-! ## Playcount lookup (source lines 134-142) -/

/-- Characters after the last `':'` of the input (accumulator `acc` holds
the current segment reversed; a colon starts a new segment).  The result
is exactly the last element of Python's `split(':')`, which is the
segment following the final colon (the whole string when there is no
colon, empty when the string ends in a colon). -/
def lastSegAux : List Char → List Char → List Char
  | [], acc => acc.reverse
  | c :: cs, acc => if c = ':' then lastSegAux cs [] else lastSegAux cs (c :: acc)

/-- Trailing URI segment: `album_track['uri'].split(':')[-1]` (line 138).
Python's `split` on a nonempty separator always yields a nonempty list,
and its last element is the text after the last separator occurrence,
computed here directly. -/
def last_uri_segment (uri : String) : String :=
  String.mk (lastSegAux uri.toList [])

/-- The inner loop of lines 137-140: scan one disc's tracks in order and
return the playcount of the first track whose trailing URI segment equals
the requested track id (the `break` after a hit makes it first-match). -/
def find_in_disc (tid : String) : List AlbumTrack → Option Nat
  | [] => none
  | t :: ts =>
    if last_uri_segment t.uri == tid then some t.playcount
    else find_in_disc tid ts

/-- The outer loop of lines 136-142: scan discs in order; once a disc
yields a playcount the second `break` (lines 141-142) stops the scan, so
later discs are not inspected. `none` models the `track_playcount is None`
outcome of line 149. -/
def track_playcount (tid : String) : List Disc → Option Nat
  | [] => none
  | d :: ds =>
    match find_in_disc tid d.tracks with
    | some p => some p
    | none => track_playcount tid ds

/-! ## Token provider (source lines 34-48 and 78-90) -/

/-- A persisted token as written by `get_access_token` (lines 43-48):
access token string plus absolute expiry `expires_time`.  Times are
integers (seconds); the float-typed clock of the source is irrelevant to
the ordering facts proved here. -/
structure TokenData where
  access_token : String
  expires_time : Int
deriving DecidableEq

/-- Contents of `auth/auth.json` as seen by the startup code (lines
78-82): either missing/undecodable (the `FileNotFoundError` /
`JSONDecodeError` branch) or a stored token record. -/
inductive TokenFile where
  | missingOrCorrupt
  | stored (d : TokenData)
deriving DecidableEq

/-- `get_access_token` (lines 34-48): performs the client-credentials
exchange (the fresh token string `serverToken` and TTL `expires_in` are
the server's response fields) and computes
`expires_time = time.time() + expires_in` (line 44).  The returned record
is what line 48 persists to `auth/auth.json`. -/
def get_access_token (serverToken : String) (expires_in now : Int) : TokenData :=
  { access_token := serverToken, expires_time := now + expires_in }

/-- Startup auth initialization (lines 78-90).  Returns the token in use
afterwards together with a flag that is true exactly when
`get_access_token` was called (and hence a new token persisted): on a
missing/corrupt file (line 82-84) and on `expires_time <= time.time()`
(lines 86-88); otherwise the stored token is reused (line 90). -/
def init_auth (file : TokenFile) (serverToken : String) (expires_in now : Int) :
    TokenData × Bool :=
  match file with
  | .missingOrCorrupt => (get_access_token serverToken expires_in now, true)
  | .stored d =>
    if d.expires_time ≤ now then (get_access_token serverToken expires_in now, true)
    else (d, false)

/-! ## Per-track processing loop and total (source lines 109-156) -/

/-- Outcome of one iteration of the track loop: either the
playcount line of line 147 (with the count added to the total at line
148) or the "Could not find playcount" notice of line 150. -/
inductive ReportLine where
  | found (name : String) (count : Nat)
  | notFound (name : String)
deriving DecidableEq

/-- What the loop body (lines 118-152) does for a single track: fetch the
album's playcount data via `lookup` (the GET of line 126, keyed on
`track['album']['id']`) and scan it for `track['id']`. -/
def process_track (lookup : String → AlbumData) (t : Track) : ReportLine :=
  match track_playcount t.id (lookup t.album.id).discs with
  | some p => .found t.name p
  | none => .notFound t.name

/-- The track loop (lines 118-152) with the running accumulator
`total_playcount` (initialised to 0 at line 109, incremented at line 148
only when a playcount was found).  Returns the final total and the report
line of every track in input order. -/
def process_go (lookup : String → AlbumData) : List Track → Nat → Nat × List ReportLine
  | [], acc => (acc, [])
  | t :: ts, acc =>
    match track_playcount t.id (lookup t.album.id).discs with
    | some p =>
      let rest := process_go lookup ts (acc + p)
      (rest.1, .found t.name p :: rest.2)
    | none =>
      let rest := process_go lookup ts acc
      (rest.1, .notFound t.name :: rest.2)

/-- Lines 109-156: run the loop from `total_playcount = 0`. -/
def process_tracks (lookup : String → AlbumData) (tracks : List Track) :
    Nat × List ReportLine :=
  process_go lookup tracks 0

/-! ## The --limit option (source lines 104-107) -/

/-- Python's `tracks[:n]` for an arbitrary integer `n`: a nonnegative
bound keeps the first `n` elements, a negative bound drops the last `|n|`
elements. -/
def python_slice_to (l : List Track) (n : Int) : List Track :=
  if 0 ≤ n then l.take n.toNat else l.take (l.length - (-n).toNat)

/-- Lines 104-106: `if args.limit: tracks = tracks[:args.limit]`.
`args.limit` is `none` when the option was not given; the Python
truthiness test additionally skips the slice when the limit is the
integer 0. -/
def apply_limit (limit : Option Int) (l : List Track) : List Track :=
  match limit with
  | none => l
  | some n => if n = 0 then l else python_slice_to l n

/-! ## Playlist pagination (source lines 50-75) -/

/-- One successful page response body: the `items` list (each slot holds
`item['track']`, which may be null for unavailable tracks, line 69) and
the truthiness of the `next` field (line 72). -/
structure Page where
  items : List (Option Track)
  next : Bool
deriving DecidableEq

/-- Status-level outcome of one playlist-page GET (line 53): either HTTP
401 (line 60) or a 2xx response carrying a page.  Any other status would
raise at line 65 and abort the run, which is outside the claims proved
here. -/
inductive PageResp where
  | unauthorized
  | ok (page : Page)
deriving DecidableEq

/-- The playlist-tracks endpoint as an environment: `respond offset r` is
the response to the GET at a given `offset` when `r` token refreshes have
happened so far (a refresh changes the session's Authorization header,
line 45, so responses may depend on it). -/
structure PagEnv where
  respond : Nat → Nat → PageResp

/-- Instrumentation carried through a pagination run: how many times
`get_access_token` was called from the 401 branch (line 62) and the
offsets of all GETs issued (line 53), in order. -/
structure PagState where
  refreshCount : Nat
  requested : List Nat
deriving DecidableEq

/-- State before `get_playlist_tracks(playlist_id)` is first entered. -/
def init_state : PagState := ⟨0, []⟩

/-- `get_playlist_tracks` (lines 50-75), fuel-indexed: each recursive call
of the source (the 401 retry at line 63 and the next-page call at line
73) consumes one fuel; `none` means the source recursion would not have
returned within `fuel` calls.  On 401 the token is refreshed and the same
offset retried with the same accumulator (lines 60-63); otherwise the
non-null tracks of the page are appended (lines 68-70) and pagination
continues at `offset + 50` while `next` is truthy (lines 72-73),
returning the accumulator when it is not (line 75). -/
def get_playlist_tracks (env : PagEnv) :
    Nat → Nat → List Track → PagState → Option (List Track × PagState)
  | 0, _, _, _ => none
  | fuel + 1, offset, tracks, st =>
    let st1 : PagState := { st with requested := st.requested ++ [offset] }
    match env.respond offset st.refreshCount with
    | .unauthorized =>
      get_playlist_tracks env fuel offset tracks
        { st1 with refreshCount := st1.refreshCount + 1 }
    | .ok page =>
      let tracks1 := tracks ++ page.items.filterMap id
      if page.next then
        get_playlist_tracks env fuel (offset + 50) tracks1 st1
      else
        some (tracks1, st1)

/-- A backend that never returns 401: every GET at offset `o` yields the
page `pages o`, regardless of refreshes. -/
def cleanEnv (pages : Nat → Page) : PagEnv :=
  ⟨fun o _ => .ok (pages o)⟩

/-- A backend whose token has expired for exactly one page: the first GET
at offset `bad` before any refresh returns 401; after the one refresh
every GET succeeds with `pages o`. -/
def oneBadEnv (pages : Nat → Page) (bad : Nat) : PagEnv :=
  ⟨fun o r => if o = bad ∧ r = 0 then .unauthorized else .ok (pages o)⟩

/-- A backend that answers every request with 401, no matter how often
the token is refreshed. -/
def always401Env : PagEnv :=
  ⟨fun _ _ => .unauthorized⟩

/-- Expected offsets of `m` consecutive page requests starting at `b`:
`[b, b+50, ..., b+50*(m-1)]`. -/
def segOffsets : Nat → Nat → List Nat
  | _, 0 => []
  | b, m + 1 => b :: segOffsets (b + 50) m

/-- Expected tracks collected over `m` consecutive pages starting at
offset `b`: concatenation in page order with null slots dropped. -/
def segTracks (pages : Nat → Page) : Nat → Nat → List Track
  | _, 0 => []
  | b, m + 1 => (pages b).items.filterMap id ++ segTracks pages (b + 50) m

/-- A call `get_playlist_tracks(playlist_id)` that leaves the `tracks`
parameter at its default.  In Python the default list `[]` of line 50 is
a single object created once at function definition time and mutated by
`tracks.append` (line 70), and the function returns that very object; so
`stored` is the current content of the shared default list and the second
component is its content after the call. -/
def call_default (env : PagEnv) (fuel : Nat) (stored : List Track) :
    Option (List Track × List Track) :=
  match get_playlist_tracks env fuel 0 stored init_state with
  | some (res, _) => some (res, res)
  | none => none

/-! ## HTTP retry layer (source lines 24-27) -/

/-- The character class `[a-zA-Z0-9]` of the regex at line 94, written on
code points: lowercase letters, uppercase letters, digits. -/
def isIdChar (c : Char) : Bool :=
  (97 ≤ c.toNat && c.toNat ≤ 122) || (65 ≤ c.toNat && c.toNat ≤ 90)
    || (48 ≤ c.toNat && c.toNat ≤ 57)

/-- Case-insensitive match of one pattern character `p` (a lowercase
letter or punctuation from the literal prefixes of line 94) against an
input character `c`, as the `(?i)` flag prescribes for ASCII: equal code
points, or `c` is the uppercase counterpart of a lowercase letter `p`. -/
def ciEq (p c : Char) : Bool :=
  p.toNat == c.toNat || (65 ≤ c.toNat && c.toNat ≤ 90 && c.toNat + 32 == p.toNat)

/-- Match a literal pattern prefix case-insensitively at the front of the
input, returning the rest of the input on success. -/
def stripCI : List Char → List Char → Option (List Char)
  | [], cs => some cs
  | _ :: _, [] => none
  | p :: ps, c :: cs => if ciEq p c then stripCI ps cs else none

/-- The group `([a-zA-Z0-9]{22})`: succeeds iff 22 class characters stand
at the current position, capturing exactly those 22 (the regex is not
anchored at the end, so anything may follow). -/
def take22 (cs : List Char) : Option (List Char) :=
  if (cs.take 22).length == 22 && (cs.take 22).all isIdChar then some (cs.take 22)
  else none

/-- The literal alternative `https://open\.spotify\.com/playlist/` of the
regex at line 94 (with `s` present). -/
def httpsPre : List Char :=
  ['h', 't', 't', 'p', 's', ':', '/', '/', 'o', 'p', 'e', 'n', '.', 's', 'p',
   'o', 't', 'i', 'f', 'y', '.', 'c', 'o', 'm', '/', 'p', 'l', 'a', 'y', 'l',
   'i', 's', 't', '/']

/-- The same alternative with the optional `s` absent (`https?`). -/
def httpPre : List Char :=
  ['h', 't', 't', 'p', ':', '/', '/', 'o', 'p', 'e', 'n', '.', 's', 'p', 'o',
   't', 'i', 'f', 'y', '.', 'c', 'o', 'm', '/', 'p', 'l', 'a', 'y', 'l', 'i',
   's', 't', '/']

/-- The alternative `spotify:playlist:` of the regex at line 94. -/
def uriPre : List Char :=
  ['s', 'p', 'o', 't', 'i', 'f', 'y', ':', 'p', 'l', 'a', 'y', 'l', 'i', 's',
   't', ':']

/-- One alternative of the optional prefix group followed by the capture
group: match the prefix, then 22 class characters. -/
def tryAlt (pre cs : List Char) : Option (List Char) :=
  (stripCI pre cs).bind take22

/-- `re.match` of the pattern at line 94 on the argument, returning
`m.group(1)` (line 96): the backtracking order of
`(?:https?://open\.spotify\.com/playlist/|spotify:playlist:)?` tries the
`https` literal, then `http`, then `spotify:playlist:`, then the empty
prefix, each followed by the 22-character capture group. -/
def match_playlist_id (cs : List Char) : Option (List Char) :=
  match tryAlt httpsPre cs with
  | some r => some r
  | none =>
    match tryAlt httpPre cs with
    | some r => some r
    | none =>
      match tryAlt uriPre cs with
      | some r => some r
      | none => take22 cs

/-- Lines 93-99: a match yields the captured playlist id; no match prints
the diagnostic of line 98 and exits with code 1 (line 99). -/
def parse_playlist_arg (cs : List Char) : Except Nat (List Char) :=
  match match_playlist_id cs with
  | some id => .ok id
  | none => .error 1

/-- A 22-character alphanumeric playlist id, as the claims describe it. -/
def valid_id (cs : List Char) : Bool :=
  cs.length == 22 && cs.all isIdChar

/-- Follows the claim's words, not the source: the input is in one of the
three valid playlist forms — a bare 22-character alphanumeric id,
`https://open.spotify.com/playlist/<id>`, or `spotify:playlist:<id>`. -/
def claim_valid_form (cs : List Char) : Bool :=
  valid_id cs
    || (cs.take httpsPre.length == httpsPre && valid_id (cs.drop httpsPre.length))
    || (cs.take uriPre.length == uriPre && valid_id (cs.drop uriPre.length))

/-! ## Shared list lemmas -/

/-- First match in a concatenation: the left list is searched first. -/
theorem find_first_append {α : Type} (p : α → Bool) :
    ∀ l₁ l₂ : List α, (l₁ ++ l₂).find? p =
      match l₁.find? p with
      | some a => some a
      | none => l₂.find? p := by
  intro l₁ l₂
  induction l₁ with
  | nil => simp
  | cons a l ih =>
    cases h : p a with
    | true => simp [List.find?_cons, h]
    | false => simp [List.find?_cons, h, ih]

/-! ## C4: playcount lookup is first-match on the trailing URI segment -/

/-- The inner disc scan equals a first-match search of the disc's track
list. -/
theorem find_in_disc_eq (tid : String) (ts : List AlbumTrack) :
    find_in_disc tid ts =
      (ts.find? fun t => last_uri_segment t.uri == tid).map fun t => t.playcount := by
  induction ts with
  | nil => rfl
  | cons t ts ih =>
    cases h : (last_uri_segment t.uri == tid) with
    | true => simp [find_in_disc, List.find?_cons, h]
    | false => simp [find_in_disc, List.find?_cons, h, ih]

/-- The full nested scan equals a first-match search of the disc-major
flattening of all candidate tracks. -/
theorem track_playcount_eq (tid : String) (ds : List Disc) :
    track_playcount tid ds =
      ((ds.flatMap fun d => d.tracks).find? fun t => last_uri_segment t.uri == tid).map
        fun t => t.playcount := by
  induction ds with
  | nil => rfl
  | cons d ds ih =>
    rw [track_playcount, find_in_disc_eq, List.flatMap_cons,
      find_first_append (fun t => last_uri_segment t.uri == tid) d.tracks]
    cases hf : d.tracks.find? fun t => last_uri_segment t.uri == tid with
    | none => simpa [hf] using ih
    | some t => simp [hf]

/-- C4: for every album record and requested track id, the scan of lines
134-142 matches a candidate iff the last `':'`-separated segment of its
uri equals the requested id, returns the playcount of the first such
candidate in disc-major order (short-circuiting the rest), and returns
`none` iff no candidate in any disc matches. -/
theorem c4_first_match (data : AlbumData) (tid : String) :
    track_playcount tid data.discs =
      ((data.discs.flatMap fun d => d.tracks).find? fun t => last_uri_segment t.uri == tid).map
        (fun t => t.playcount)
    ∧ (track_playcount tid data.discs = none ↔
        ∀ t ∈ data.discs.flatMap fun d => d.tracks, ¬ last_uri_segment t.uri = tid) := by
  refine ⟨track_playcount_eq tid data.discs, ?_⟩
  rw [track_playcount_eq tid data.discs]
  simp [List.find?_eq_none]
  constructor
  · intro h t x hx ht
    exact h x hx t ht
  · intro h x hx t ht
    exact h t x hx ht

/-! ## C5: token refresh happens exactly when needed -/

/-- C5: at startup a credential exchange happens (and the new token is
persisted) exactly when the token file is missing/corrupt or its stored
expiry has passed; otherwise the stored token (still strictly in the
future) is reused.  A fresh token's expiry is `now + ttl`, hence strictly
in the future for positive ttl. -/
theorem c5_token_refresh (file : TokenFile) (serverToken : String) (ttl now : Int) :
    ((init_auth file serverToken ttl now).2 = true ↔
      file = .missingOrCorrupt ∨ ∃ d, file = .stored d ∧ d.expires_time ≤ now)
    ∧ ((init_auth file serverToken ttl now).2 = true →
        (init_auth file serverToken ttl now).1.expires_time = now + ttl)
    ∧ ((init_auth file serverToken ttl now).2 = false →
        ∃ d, file = .stored d ∧ (init_auth file serverToken ttl now).1 = d ∧
          now < d.expires_time)
    ∧ (0 < ttl → (init_auth file serverToken ttl now).2 = true →
        now < (init_auth file serverToken ttl now).1.expires_time) := by
  cases file with
  | missingOrCorrupt =>
    refine ⟨by simp [init_auth], by simp [init_auth, get_access_token], ?_, ?_⟩
    · intro h
      simp [init_auth] at h
    · intro h _
      simp [init_auth, get_access_token]
      omega
  | stored d =>
    by_cases h : d.expires_time ≤ now
    · refine ⟨by simp [init_auth, h], by simp [init_auth, h, get_access_token], ?_, ?_⟩
      · intro hc
        simp [init_auth, h] at hc
      · intro ht _
        simp [init_auth, h, get_access_token]
        omega
    · refine ⟨by simp [init_auth, h], ?_, ?_, ?_⟩
      · intro hc
        simp [init_auth, h] at hc
      · intro _
        exact ⟨d, rfl, by simp [init_auth, h], by omega⟩
      · intro _ hc
        simp [init_auth, h] at hc

/-- Concrete run of `c5_token_refresh`: with a missing token file, a
3600-second ttl and clock 1000, the refreshed expiry is in the future. -/
theorem c5_witness :
    (1000 : Int) < (init_auth TokenFile.missingOrCorrupt "tok" 3600 1000).1.expires_time :=
  (c5_token_refresh TokenFile.missingOrCorrupt "tok" 3600 1000).2.2.2 (by decide) rfl

/-! ## C6: total is the sum over found playcounts, not-found continues -/

/-- Loop invariant of lines 118-152: from accumulator `acc`, the final
total is `acc` plus the playcounts of exactly the tracks whose lookup
succeeded, and one report line is produced per track in input order. -/
theorem process_go_spec (lookup : String → AlbumData) :
    ∀ (ts : List Track) (acc : Nat),
      (process_go lookup ts acc).1 =
        acc + (ts.filterMap fun t => track_playcount t.id (lookup t.album.id).discs).sum
      ∧ (process_go lookup ts acc).2 = ts.map (process_track lookup) := by
  intro ts
  induction ts with
  | nil => intro acc; simp [process_go]
  | cons t ts ih =>
    intro acc
    cases h : track_playcount t.id (lookup t.album.id).discs with
    | none =>
      have := ih acc
      simp [process_go, h, process_track, this.1, this.2]
    | some p =>
      have := ih (acc + p)
      refine ⟨?_, ?_⟩
      · simp [process_go, h, this.1]
        omega
      · simp [process_go, h, process_track, this.2]

/-- C6: the grand total equals the sum of the playcounts of exactly the
tracks with a matching record; an unmatched track contributes a
"not found" report line and nothing to the total, and processing reaches
every track.  In particular a 3-track list whose middle track has no
match totals the first and third playcounts only. -/
theorem c6_total (lookup : String → AlbumData) (tracks : List Track) :
    (process_tracks lookup tracks).1 =
      (tracks.filterMap fun t => track_playcount t.id (lookup t.album.id).discs).sum
    ∧ (process_tracks lookup tracks).2 = tracks.map (process_track lookup)
    ∧ ∀ t1 t2 t3 p1 p3,
        track_playcount t1.id (lookup t1.album.id).discs = some p1 →
        track_playcount t2.id (lookup t2.album.id).discs = none →
        track_playcount t3.id (lookup t3.album.id).discs = some p3 →
        (process_tracks lookup [t1, t2, t3]).1 = p1 + p3
        ∧ (process_tracks lookup [t1, t2, t3]).2 =
            [.found t1.name p1, .notFound t2.name, .found t3.name p3] := by
  have h := process_go_spec lookup tracks 0
  refine ⟨by simpa using h.1, h.2, ?_⟩
  intro t1 t2 t3 p1 p3 h1 h2 h3
  have h123 := process_go_spec lookup [t1, t2, t3] 0
  constructor
  · rw [process_tracks, h123.1]
    simp [h1, h2, h3]
  · rw [process_tracks, h123.2]
    simp [process_track, h1, h2, h3]

/-- A playlist fixture for the witnesses: three tracks, the first and
third on album AL1 with playcounts 10 and 20, the middle one on an album
absent from the playcount service. -/
def wT1 : Track := ⟨"AAA", "Song1", [⟨"Ann"⟩], ⟨"AL1"⟩⟩

/-- Second fixture track; its album AL2 yields no discs. -/
def wT2 : Track := ⟨"BBB", "Song2", [], ⟨"AL2"⟩⟩

/-- Third fixture track, also on album AL1. -/
def wT3 : Track := ⟨"CCC", "Song3", [], ⟨"AL1"⟩⟩

/-- The playcount service of the fixture. -/
def wLookup : String → AlbumData := fun aid =>
  if aid = "AL1" then
    ⟨[⟨[⟨"spotify:track:AAA", 10⟩, ⟨"spotify:track:CCC", 20⟩]⟩]⟩
  else ⟨[]⟩

/-- Concrete run of `c6_total` on the fixture: total 30, middle track
reported as not found. -/
theorem c6_witness :
    (process_tracks wLookup [wT1, wT2, wT3]).1 = 10 + 20
    ∧ (process_tracks wLookup [wT1, wT2, wT3]).2 =
        [.found "Song1" 10, .notFound "Song2", .found "Song3" 20] :=
  (c6_total wLookup [wT1, wT2, wT3]).2.2 wT1 wT2 wT3 10 20 (by decide) (by decide)
    (by decide)

/-! ## C8: --limit slices the track list (corrected: 0 is ignored) -/

/-- Fixture track for the limit claims. -/
def cx_track : Track := ⟨"tid0", "name0", [], ⟨"alb0"⟩⟩

/-- C8 counterexample: with `--limit 0` on a 1-track list the claim
demands the first `min 0 1 = 0` tracks, but the truthiness test of line
105 treats 0 as "no limit", so the whole list is processed. -/
theorem c8_counterexample :
    apply_limit (some 0) [cx_track] = [cx_track]
    ∧ [cx_track].take (min 0 [cx_track].length) = []
    ∧ apply_limit (some 0) [cx_track] ≠ [cx_track].take (min 0 [cx_track].length) := by
  decide

/-- C8 amended: for every positive integer N given via --limit, exactly
the first min(N, length) tracks are kept, in order, and only those tracks
are processed afterwards (a limit of 0 is ignored by the code and leaves
the list untouched; without --limit the list is untouched). -/
theorem c8_amended (n : Int) (l : List Track) (lookup : String → AlbumData)
    (hn : 0 < n) :
    apply_limit (some n) l = l.take n.toNat
    ∧ (apply_limit (some n) l).length = min n.toNat l.length
    ∧ (process_tracks lookup (apply_limit (some n) l)).2 =
        (l.take n.toNat).map (process_track lookup)
    ∧ apply_limit none l = l := by
  have hne : n ≠ 0 := by omega
  have h0 : (0 : Int) ≤ n := le_of_lt hn
  have hsl : apply_limit (some n) l = l.take n.toNat := by
    simp [apply_limit, python_slice_to, hne, h0]
  refine ⟨hsl, ?_, ?_, rfl⟩
  · rw [hsl, List.length_take]
  · rw [hsl]
    exact (process_go_spec lookup (l.take n.toNat) 0).2

/-- Concrete run of `c8_amended`: limit 2 on a one-track list keeps the
single track. -/
theorem c8_witness :
    apply_limit (some 2) [cx_track] = [cx_track].take ((2 : Int).toNat) :=
  (c8_amended 2 [cx_track] (fun _ => ⟨[]⟩) (by decide)).1

/-! ## C3: the retry layer (corrected: 6 attempts, method- and
error-dependent retry conditions) -/

/-- Splitting a page range: the tracks of `m + n` pages from `b` are the
tracks of the first `m` pages followed by those of the next `n`. -/
theorem segTracks_add (pages : Nat → Page) :
    ∀ m n b : Nat,
      segTracks pages b (m + n) = segTracks pages b m ++ segTracks pages (b + 50 * m) n := by
  intro m
  induction m with
  | zero => intro n b; simp [segTracks]
  | succ k ih =>
    intro n b
    rw [Nat.succ_add]
    simp only [segTracks]
    rw [ih n (b + 50), show b + 50 + 50 * k = b + 50 * (k + 1) from by ring,
      List.append_assoc]

/-- A terminating all-ok run: if from offset `b` the backend answers `m`
consecutive pages successfully (at the current refresh count), the first
`m - 1` flagging a next page and the last not, then pagination returns
the accumulator extended by those pages' tracks, having requested exactly
the `m` offsets `b, b+50, ...`. -/
theorem run_ok (env : PagEnv) (pages : Nat → Page) :
    ∀ (m b fuel : Nat) (tracks : List Track) (st : PagState),
    0 < m → m ≤ fuel →
    (∀ k, k < m → env.respond (b + 50 * k) st.refreshCount = .ok (pages (b + 50 * k))) →
    (∀ k, k + 1 < m → (pages (b + 50 * k)).next = true) →
    (pages (b + 50 * (m - 1))).next = false →
    get_playlist_tracks env fuel b tracks st =
      some (tracks ++ segTracks pages b m,
        { st with requested := st.requested ++ segOffsets b m }) := by
  intro m
  induction m with
  | zero =>
    intro b fuel tracks st h0
    exact absurd h0 (by omega)
  | succ n ih =>
    intro b fuel tracks st h0 hfuel hok hnext hlast
    cases fuel with
    | zero => exact absurd hfuel (by omega)
    | succ f =>
      have h0' : env.respond b st.refreshCount = .ok (pages b) := by
        simpa using hok 0 (by omega)
      simp only [get_playlist_tracks, h0']
      cases n with
      | zero =>
        have hl : (pages b).next = false := by simpa using hlast
        rw [hl]
        simp [segTracks, segOffsets]
      | succ k =>
        have hn0 : (pages b).next = true := by simpa using hnext 0 (by omega)
        rw [hn0]
        have ihres := ih (b + 50) f (tracks ++ (pages b).items.filterMap id)
          { st with requested := st.requested ++ [b] } (by omega) (by omega)
          ?_ ?_ ?_
        · rw [ihres]
          simp [segTracks, segOffsets, List.append_assoc]
        · intro k2 hk2
          have := hok (k2 + 1) (by omega)
          rw [show b + 50 * (k2 + 1) = b + 50 + 50 * k2 from by ring] at this
          simpa using this
        · intro k2 hk2
          have := hnext (k2 + 1) (by omega)
          rw [show b + 50 * (k2 + 1) = b + 50 + 50 * k2 from by ring] at this
          exact this
        · have := hlast
          rw [show b + 50 * (k + 1 + 1 - 1) = b + 50 + 50 * (k + 1 - 1) from by
            ring_nf; omega] at this
          exact this

/-- A partial all-ok run: `m` consecutive successful pages that all flag
a next page move the recursion to offset `b + 50*m`, carrying the
collected tracks and requested offsets along. -/
theorem run_steps (env : PagEnv) (pages : Nat → Page) :
    ∀ (m b fuel : Nat) (tracks : List Track) (st : PagState),
    (∀ k, k < m → env.respond (b + 50 * k) st.refreshCount = .ok (pages (b + 50 * k))) →
    (∀ k, k < m → (pages (b + 50 * k)).next = true) →
    get_playlist_tracks env (m + fuel) b tracks st =
      get_playlist_tracks env fuel (b + 50 * m) (tracks ++ segTracks pages b m)
        { st with requested := st.requested ++ segOffsets b m } := by
  intro m
  induction m with
  | zero =>
    intro b fuel tracks st hok hnext
    simp [segTracks, segOffsets]
  | succ n ih =>
    intro b fuel tracks st hok hnext
    have h0' : env.respond b st.refreshCount = .ok (pages b) := by
      simpa using hok 0 (by omega)
    have hn0 : (pages b).next = true := by simpa using hnext 0 (by omega)
    rw [Nat.succ_add]
    simp only [get_playlist_tracks, h0']
    rw [hn0]
    have ihres := ih (b + 50) fuel (tracks ++ (pages b).items.filterMap id)
      { st with requested := st.requested ++ [b] } ?_ ?_
    · rw [if_pos rfl, ihres, show b + 50 + 50 * n = b + 50 * (n + 1) from by ring]
      simp [segTracks, segOffsets, List.append_assoc]
    · intro k2 hk2
      have := hok (k2 + 1) (by omega)
      rw [show b + 50 * (k2 + 1) = b + 50 + 50 * k2 from by ring] at this
      simpa using this
    · intro k2 hk2
      have := hnext (k2 + 1) (by omega)
      rw [show b + 50 * (k2 + 1) = b + 50 + 50 * k2 from by ring] at this
      exact this

/-- One 401 step: the token is refreshed (refresh count up by one) and
the very same offset is retried with the same accumulator (lines 60-63). -/
theorem step_401 (env : PagEnv) (fuel offset : Nat) (tracks : List Track)
    (st : PagState) (h : env.respond offset st.refreshCount = .unauthorized) :
    get_playlist_tracks env (fuel + 1) offset tracks st =
      get_playlist_tracks env fuel offset tracks
        ⟨st.refreshCount + 1, st.requested ++ [offset]⟩ := by
  simp only [get_playlist_tracks, h]

/-! ## C2: exhaustive pagination, no 401 -/

/-- C2: against a backend serving `N` pages (the first `N - 1` flagging a
next page, the last not), `get_playlist_tracks` issues exactly `N` page
requests at offsets 0, 50, ..., 50*(N-1) and returns the concatenation of
all pages' non-null track slots in original order, with no refresh. -/
theorem c2_pagination (pages : Nat → Page) (N fuel : Nat)
    (hN : 0 < N) (hfuel : N ≤ fuel)
    (hNext : ∀ k, k + 1 < N → (pages (50 * k)).next = true)
    (hLast : (pages (50 * (N - 1))).next = false) :
    get_playlist_tracks (cleanEnv pages) fuel 0 [] init_state =
      some (segTracks pages 0 N, { refreshCount := 0, requested := segOffsets 0 N }) := by
  have h := run_ok (cleanEnv pages) pages N 0 fuel [] init_state hN hfuel
    (fun k hk => rfl) (fun k hk => by simpa using hNext k hk) (by simpa using hLast)
  simpa [init_state] using h

/-- Two-page fixture for the C2 witness: page at offset 0 with one null
slot, final page at offset 50. -/
def c2pages : Nat → Page := fun o =>
  if o = 0 then ⟨[some ⟨"b1", "B1", [], ⟨"y"⟩⟩, none], true⟩
  else ⟨[some ⟨"b2", "B2", [], ⟨"y"⟩⟩], false⟩

/-- Concrete run of `c2_pagination`: two requests at offsets 0 and 50,
three slots, the null one dropped. -/
theorem c2_witness :
    get_playlist_tracks (cleanEnv c2pages) 2 0 [] init_state =
      some ([⟨"b1", "B1", [], ⟨"y"⟩⟩, ⟨"b2", "B2", [], ⟨"y"⟩⟩], ⟨0, [0, 50]⟩) := by
  have h := c2_pagination c2pages 2 2 (by decide) (by decide)
    (by
      intro k hk
      have hk0 : k = 0 := by omega
      subst hk0
      decide)
    (by decide)
  rw [h]
  decide

/-! ## C1: a single mid-pagination 401 is healed by one refresh -/

/-- C1: if exactly one page request (the first one at offset `50*j`)
returns 401 and the retry succeeds, the run performs exactly one token
refresh, re-requests the same offset (it appears twice in a row in the
request log), and returns exactly the track sequence of the run with no
401: nothing duplicated, nothing dropped. -/
theorem c1_retry_after_401 (pages : Nat → Page) (N j fuel : Nat)
    (hN : 0 < N) (hj : j < N)
    (hNext : ∀ k, k + 1 < N → (pages (50 * k)).next = true)
    (hLast : (pages (50 * (N - 1))).next = false)
    (hfuel : N + 1 ≤ fuel) :
    get_playlist_tracks (oneBadEnv pages (50 * j)) fuel 0 [] init_state =
      some (segTracks pages 0 N,
        { refreshCount := 1,
          requested := segOffsets 0 j ++ 50 * j :: segOffsets (50 * j) (N - j) })
    ∧ get_playlist_tracks (cleanEnv pages) fuel 0 [] init_state =
      some (segTracks pages 0 N, { refreshCount := 0, requested := segOffsets 0 N }) := by
  constructor
  · have hok1 : ∀ k, k < j → (oneBadEnv pages (50 * j)).respond (0 + 50 * k)
        init_state.refreshCount = .ok (pages (0 + 50 * k)) := by
      intro k hk
      simp [oneBadEnv, init_state]
      omega
    have hnx1 : ∀ k, k < j → (pages (0 + 50 * k)).next = true := by
      intro k hk
      simpa using hNext k (by omega)
    have hsteps := run_steps (oneBadEnv pages (50 * j)) pages j 0 ((fuel - j - 1) + 1)
      [] init_state hok1 hnx1
    have h401 : (oneBadEnv pages (50 * j)).respond (0 + 50 * j)
        (({ init_state with
            requested := init_state.requested ++ segOffsets 0 j } : PagState)).refreshCount =
        .unauthorized := by
      simp [oneBadEnv, init_state]
    have hstep := step_401 (oneBadEnv pages (50 * j)) (fuel - j - 1) (0 + 50 * j)
      ([] ++ segTracks pages 0 j)
      { init_state with requested := init_state.requested ++ segOffsets 0 j } h401
    simp only [init_state, List.nil_append, Nat.zero_add] at hsteps hstep
    have hok2 : ∀ k, k < N - j → (oneBadEnv pages (50 * j)).respond (50 * j + 50 * k)
        (PagState.mk 1 (segOffsets 0 j ++ [50 * j])).refreshCount =
        .ok (pages (50 * j + 50 * k)) := by
      intro k hk
      simp [oneBadEnv]
    have hnx2 : ∀ k, k + 1 < N - j → (pages (50 * j + 50 * k)).next = true := by
      intro k hk
      rw [show 50 * j + 50 * k = 50 * (j + k) from by ring]
      exact hNext (j + k) (by omega)
    have hlast2 : (pages (50 * j + 50 * (N - j - 1))).next = false := by
      rw [show 50 * j + 50 * (N - j - 1) = 50 * (N - 1) from by omega]
      exact hLast
    have hok3 := run_ok (oneBadEnv pages (50 * j)) pages (N - j) (50 * j) (fuel - j - 1)
      (segTracks pages 0 j) ⟨1, segOffsets 0 j ++ [50 * j]⟩ (by omega) (by omega)
      hok2 hnx2 hlast2
    have hT : segTracks pages 0 j ++ segTracks pages (50 * j) (N - j) =
        segTracks pages 0 N := by
      have h := segTracks_add pages j (N - j) 0
      rw [show j + (N - j) = N from by omega] at h
      simpa using h.symm
    simp only [init_state]
    rw [show fuel = j + ((fuel - j - 1) + 1) from by omega, hsteps, hstep, hok3]
    simp [hT, List.append_assoc]
  · have h := run_ok (cleanEnv pages) pages N 0 fuel [] init_state hN (by omega)
      (fun k hk => rfl) (fun k hk => by simpa using hNext k hk) (by simpa using hLast)
    simpa [init_state] using h

/-- Single-page fixture for the C1 witness. -/
def c1pages : Nat → Page := fun _ => ⟨[some ⟨"a1", "A", [], ⟨"x"⟩⟩], false⟩

/-- Concrete run of `c1_retry_after_401`: the 401 at offset 0 causes one
refresh, offset 0 is requested twice, and the tracks equal the clean
run's. -/
theorem c1_witness :
    get_playlist_tracks (oneBadEnv c1pages (50 * 0)) 2 0 [] init_state =
      some ([⟨"a1", "A", [], ⟨"x"⟩⟩], ⟨1, [0, 0]⟩)
    ∧ get_playlist_tracks (cleanEnv c1pages) 2 0 [] init_state =
      some ([⟨"a1", "A", [], ⟨"x"⟩⟩], ⟨0, [0]⟩) := by
  have h := c1_retry_after_401 c1pages 1 0 2 (by decide) (by decide)
    (fun k hk => absurd hk (by omega)) (by decide) (by decide)
  exact ⟨by rw [h.1]; decide, by rw [h.2]; decide⟩

/-! ## C9: permanent 401 means divergence -/

/-- Against the always-401 backend, no fuel suffices: the source
recursion never returns. -/
theorem always401_none :
    ∀ (fuel offset : Nat) (tracks : List Track) (st : PagState),
      get_playlist_tracks always401Env fuel offset tracks st = none := by
  intro fuel
  induction fuel with
  | zero => intro offset tracks st; rfl
  | succ f ih =>
    intro offset tracks st
    simp only [get_playlist_tracks, always401Env]
    exact ih offset tracks _

/-- C9: if the playlist endpoint returns 401 on every request, the call
never terminates (no fuel bound returns a result), and each recursion
step performs one more token refresh and re-requests the same offset,
with no bound on the number of refreshes. -/
theorem c9_divergence :
    (∀ (fuel offset : Nat) (tracks : List Track) (st : PagState),
        get_playlist_tracks always401Env fuel offset tracks st = none)
    ∧ (∀ (fuel offset : Nat) (tracks : List Track) (st : PagState),
        get_playlist_tracks always401Env (fuel + 1) offset tracks st =
          get_playlist_tracks always401Env fuel offset tracks
            ⟨st.refreshCount + 1, st.requested ++ [offset]⟩) := by
  refine ⟨always401_none, ?_⟩
  intro fuel offset tracks st
  exact step_401 always401Env fuel offset tracks st rfl

/-! ## C10: the mutable default accumulator leaks across calls -/

/-- C10: calling `get_playlist_tracks(playlist_id)` without an explicit
`tracks` argument is not a function of its arguments alone.  With the
shared default list initially empty the call returns the playlist `T` and
leaves `T` in the default object; an identical second call then returns
`T ++ T` — every track of the earlier call precedes the fresh ones — so
two runs with identical arguments but different prior call history return
different (here: different-length) results whenever the playlist is
nonempty. -/
theorem c10_shared_default (pages : Nat → Page) (N fuel : Nat)
    (hN : 0 < N) (hfuel : N ≤ fuel)
    (hNext : ∀ k, k + 1 < N → (pages (50 * k)).next = true)
    (hLast : (pages (50 * (N - 1))).next = false) :
    call_default (cleanEnv pages) fuel [] =
      some (segTracks pages 0 N, segTracks pages 0 N)
    ∧ call_default (cleanEnv pages) fuel (segTracks pages 0 N) =
      some (segTracks pages 0 N ++ segTracks pages 0 N,
        segTracks pages 0 N ++ segTracks pages 0 N)
    ∧ (segTracks pages 0 N ≠ [] →
        segTracks pages 0 N ++ segTracks pages 0 N ≠ segTracks pages 0 N) := by
  have h1 := run_ok (cleanEnv pages) pages N 0 fuel [] init_state hN hfuel
    (fun k hk => rfl) (fun k hk => by simpa using hNext k hk) (by simpa using hLast)
  have h2 := run_ok (cleanEnv pages) pages N 0 fuel (segTracks pages 0 N) init_state
    hN hfuel (fun k hk => rfl) (fun k hk => by simpa using hNext k hk)
    (by simpa using hLast)
  refine ⟨?_, ?_, ?_⟩
  · simp [call_default, h1]
  · simp [call_default, h2]
  · intro hne heq
    have hlen := congrArg List.length heq
    rw [List.length_append] at hlen
    have hzero : (segTracks pages 0 N).length = 0 := by omega
    exact hne (List.eq_nil_of_length_eq_zero hzero)

/-- Single-page fixture for the C10 witness. -/
def c10pages : Nat → Page := fun _ => ⟨[some ⟨"c1", "C", [], ⟨"z"⟩⟩], false⟩

/-- Concrete run of `c10_shared_default`: the first default-argument call
returns one track, the second identical call returns it twice. -/
theorem c10_witness :
    call_default (cleanEnv c10pages) 1 [] =
      some ([⟨"c1", "C", [], ⟨"z"⟩⟩], [⟨"c1", "C", [], ⟨"z"⟩⟩])
    ∧ call_default (cleanEnv c10pages) 1 (segTracks c10pages 0 1) =
      some ([⟨"c1", "C", [], ⟨"z"⟩⟩, ⟨"c1", "C", [], ⟨"z"⟩⟩],
        [⟨"c1", "C", [], ⟨"z"⟩⟩, ⟨"c1", "C", [], ⟨"z"⟩⟩])
    ∧ segTracks c10pages 0 1 ++ segTracks c10pages 0 1 ≠ segTracks c10pages 0 1 := by
  have h := c10_shared_default c10pages 1 1 (by decide) (by decide)
    (fun k hk => absurd hk (by omega)) (by decide)
  exact ⟨by rw [h.1]; decide, by rw [h.2.1]; decide, h.2.2 (by decide)⟩

/-! ## C7: playlist ID extraction (corrected: trailing input accepted) -/

/-- A pattern character matches itself. -/
theorem stripCI_append_self : ∀ ps cs : List Char, stripCI ps (ps ++ cs) = some cs := by
  intro ps cs
  induction ps with
  | nil => simp [stripCI]
  | cons p ps ih =>
    have hp : ciEq p p = true := by simp [ciEq]
    simp [stripCI, hp, ih]

/-- A mismatch at the first character fails the whole prefix match. -/
theorem stripCI_cons_false (p c : Char) (ps cs : List Char) (h : ciEq p c = false) :
    stripCI (p :: ps) (c :: cs) = none := by
  simp [stripCI, h]

/-- If a prefix matched, every pattern character found some input
character it matches case-insensitively. -/
theorem stripCI_some_mem :
    ∀ (ps cs r : List Char), stripCI ps cs = some r →
      ∀ p ∈ ps, ∃ c ∈ cs, ciEq p c = true := by
  intro ps
  induction ps with
  | nil =>
    intro cs r h p hp
    exact absurd hp (List.not_mem_nil p)
  | cons q ps ih =>
    intro cs r h p hp
    cases cs with
    | nil => exact absurd h (by simp [stripCI])
    | cons c cs =>
      by_cases hq : ciEq q c = true
      · simp only [stripCI, hq, if_true] at h
        rcases List.mem_cons.mp hp with rfl | hp'
        · exact ⟨c, List.mem_cons_self c cs, hq⟩
        · obtain ⟨c', hc', hci⟩ := ih cs r h p hp'
          exact ⟨c', List.mem_cons_of_mem c hc', hci⟩
      · rw [Bool.not_eq_true] at hq
        simp [stripCI, hq] at h

/-- A colon never matches an alphanumeric input character, even
case-insensitively. -/
theorem colon_vs_idchar (c : Char) (h : isIdChar c = true) : ciEq ':' c = false := by
  by_contra hc
  rw [Bool.not_eq_false] at hc
  simp [isIdChar] at h
  simp [ciEq] at hc
  omega

/-- The capture group consumes a full valid id unchanged. -/
theorem take22_of_valid (cs : List Char) (h : valid_id cs = true) :
    take22 cs = some cs := by
  have hlen : cs.length = 22 := by
    have h' := h
    simp [valid_id] at h'
    exact h'.1
  have htake : cs.take 22 = cs := by
    rw [← hlen, List.take_length]
  unfold take22
  rw [htake]
  rw [show (cs.length == 22 && cs.all isIdChar) = true from h]
  rfl

/-- C7 counterexample: a run of 23 `'a'`s is in none of the three valid
playlist forms, yet the unanchored regex of line 94 matches its first 22
characters, so the program proceeds instead of exiting with code 1. -/
theorem c7_counterexample :
    claim_valid_form (List.replicate 23 'a') = false
    ∧ match_playlist_id (List.replicate 23 'a') = some (List.replicate 22 'a')
    ∧ parse_playlist_arg (List.replicate 23 'a') = .ok (List.replicate 22 'a') := by
  refine ⟨by decide, by decide, ?_⟩
  rfl

/-- C7 amended: on each of the three valid forms the extracted ID equals
the 22-character token; but the regex is only anchored at the start, so
an input is rejected (diagnostic plus exit code 1) exactly when no
case-insensitive optional prefix followed by 22 alphanumerics occurs at
the start of the input — inputs with trailing characters after a match,
such as a URL with a query string, are accepted with the first 22
alphanumeric characters after the prefix as the ID. -/
theorem c7_amended (id : List Char) (hid : valid_id id = true) :
    match_playlist_id id = some id
    ∧ match_playlist_id (httpsPre ++ id) = some id
    ∧ match_playlist_id (uriPre ++ id) = some id
    ∧ ∀ cs : List Char, match_playlist_id cs = none → parse_playlist_arg cs = .error 1 := by
  have hidchar : ∀ c ∈ id, isIdChar c = true := by
    have h' := hid
    simp [valid_id] at h'
    exact h'.2
  have hstrip : ∀ pre : List Char, ':' ∈ pre → stripCI pre id = none := by
    intro pre hmem
    cases hs : stripCI pre id with
    | none => rfl
    | some r =>
      obtain ⟨c, hc, hci⟩ := stripCI_some_mem pre id r hs ':' hmem
      rw [colon_vs_idchar c (hidchar c hc)] at hci
      exact absurd hci (by simp)
  refine ⟨?_, ?_, ?_, ?_⟩
  · simp [match_playlist_id, tryAlt, hstrip httpsPre (by decide),
      hstrip httpPre (by decide), hstrip uriPre (by decide), take22_of_valid id hid]
  · simp [match_playlist_id, tryAlt, stripCI_append_self, take22_of_valid id hid]
  · have h1 : stripCI httpsPre (uriPre ++ id) = none := by
      simp only [httpsPre, uriPre, List.cons_append]
      exact stripCI_cons_false _ _ _ _ (by decide)
    have h2 : stripCI httpPre (uriPre ++ id) = none := by
      simp only [httpPre, uriPre, List.cons_append]
      exact stripCI_cons_false _ _ _ _ (by decide)
    simp [match_playlist_id, tryAlt, h1, h2, stripCI_append_self,
      take22_of_valid id hid]
  · intro cs hnone
    simp [parse_playlist_arg, hnone]

/-- A concrete 22-character playlist id for the C7 witness. -/
def c7id : List Char := "37i9dQZF1DXcBWIGoYBM5M".toList

/-- Concrete run of `c7_amended`: the bare id and the URI form both
extract the 22-character token. -/
theorem c7_witness :
    match_playlist_id c7id = some c7id
    ∧ match_playlist_id (uriPre ++ c7id) = some c7id :=
  ⟨(c7_amended c7id (by decide)).1, (c7_amended c7id (by decide)).2.2.1⟩
